import Mathlib

/-!
Verification development for the `devious` webapp deployment tool
(`src/tools/devious/src/devious/targets/webapp/webapp.py`).

The Python source is shallowly embedded:

* `string.Template` file contents are represented as pre-split lists of
  `Chunk`s (literal text and `${VAR}` placeholders); `substChunks` embeds
  `Template.substitute`, which replaces each placeholder left to right and
  raises `KeyError(name)` at the first placeholder missing from the
  environment.
* The local filesystem touched by `build` and by
  `copy_files_with_substitution` is an `FS`: a list of directory paths plus
  an association list from file paths (component lists) to text contents.
* The `ruamel.yaml` compose document is a `Yaml` tree; mapping nodes are
  association lists preserving key order, matching `CommentedMap` lookup
  and `dict.update` semantics (replace in place, else append). The
  serialization layer (`YAML().load` / `YAML().dump`) belongs to the
  external library and is passed in as `load` / `dump` parameters.
* Remote behaviour for `deploy` is a `SessionModel` assigning to each
  command a signal or a raised error; `deploy` returns the trace of session
  events together with a normal-completion flag.

Collaborators whose code is outside the repository snapshot (the ssh
wrapper, `linux.chain_commands`, `linux.apt_get_install`,
`docker.install_docker`, `docker.docker_compose_build`, `utils.temp_env`)
are modelled from the specification; their definitions say so in their doc
comments.
-/

namespace Devious

/-- Association-list lookup: first binding wins (as in a YAML mapping or a
directory of files, where keys are unique). -/
def alist_get {α β : Type} [DecidableEq α] : List (α × β) → α → Option β
  | [], _ => none
  | (a, b) :: l, k => if a = k then some b else alist_get l k

/-- Association-list write with Python `dict.update` semantics: if the key
is present its first binding is replaced in place, otherwise the new
binding is appended at the end. -/
def alist_set {α β : Type} [DecidableEq α] : List (α × β) → α → β → List (α × β)
  | [], k, v => [(k, v)]
  | (a, b) :: l, k, v => if a = k then (k, v) :: l else (a, b) :: alist_set l k v

/-- One lexical chunk of a template file: literal text, or a `${NAME}`
placeholder. A file's contents are the concatenation of its chunks. -/
inductive Chunk : Type
  | lit : String → Chunk
  | var : String → Chunk
deriving DecidableEq

/-- A template environment: variable name to value, as fed to
`string.Template.substitute` (the source passes `os.environ`, populated by
`utils.temp_env`). -/
abbrev Env := List (String × String)

/-- Embedding of `string.Template(text).substitute(env)`: placeholders are
replaced left to right; the first placeholder whose name is missing from
the environment aborts the substitution with a `KeyError` carrying that
name. -/
def substChunks (env : Env) : List Chunk → Except String String
  | [] => Except.ok ""
  | Chunk.lit s :: rest =>
    match substChunks env rest with
    | Except.ok t => Except.ok (s ++ t)
    | Except.error k => Except.error k
  | Chunk.var k :: rest =>
    match alist_get env k with
    | none => Except.error k
    | some v =>
      match substChunks env rest with
      | Except.ok t => Except.ok (v ++ t)
      | Except.error k' => Except.error k'

/-- A chunk is resolvable under an environment iff it is literal text or
its placeholder name is bound. -/
def chunkOk (env : Env) : Chunk → Bool
  | Chunk.lit _ => true
  | Chunk.var k => (alist_get env k).isSome

/-- A local directory tree: the set of directories present, and an
association list from file paths (lists of path components) to text
contents. Paths are relative to the directory the model is scoped to. -/
structure FS where
  dirs : List (List String)
  files : List (List String × String)
deriving DecidableEq

/-- One entry produced by `template_dir.rglob("*")`: a subdirectory, or a
file with the given chunked contents. -/
inductive TEntry : Type
  | dir : TEntry
  | file : List Chunk → TEntry
deriving DecidableEq

/-- An entry renders without error under `env` iff it is a directory or
every placeholder of the file is bound. -/
def entryOk (env : Env) : TEntry → Bool
  | TEntry.dir => true
  | TEntry.file cs => cs.all (chunkOk env)

/-- The `rglob` loop of `copy_files_with_substitution`: directories are
created; files are substituted and written; a `KeyError` from
`Template.substitute` aborts the loop before writing the failing file,
leaving everything already written in place. -/
def renderLoop (env : Env) (base : List String) :
    List (List String × TEntry) → FS → FS × Option String
  | [], f => (f, none)
  | (rel, TEntry.dir) :: rest, f =>
    renderLoop env base rest { f with dirs := (base ++ rel) :: f.dirs }
  | (rel, TEntry.file cs) :: rest, f =>
    match substChunks env cs with
    | Except.error k => (f, some k)
    | Except.ok s =>
      renderLoop env base rest { f with files := alist_set f.files (base ++ rel) s }

/-- Embedding of `copy_files_with_substitution(template_dir, target_dir)`:
first `target_dir.mkdir(parents=True, exist_ok=True)`, then the `rglob`
loop. `base` is the destination directory, `templates` the entries of the
template directory in `rglob` order (relative paths). The second component
is the name carried by the `KeyError`, if one was raised. -/
def copy_files_with_substitution (env : Env) (base : List String)
    (templates : List (List String × TEntry)) (f : FS) : FS × Option String :=
  renderLoop env base templates { f with dirs := base :: f.dirs }

/-- A `ruamel.yaml` document node: scalar string, `null`, a list of
strings (a ports list), or a mapping whose binding order is preserved. -/
inductive Yaml : Type
  | nullV : Yaml
  | str : String → Yaml
  | strList : List String → Yaml
  | map : List (String × Yaml) → Yaml

/-- The port strings built inside `configure_compose`: for each
`host_port: docker_port` binding, in dict insertion order, the string
`"{host_port}:{docker_port}"`. -/
def portStrings (ports : List (Nat × Nat)) : List String :=
  ports.map (fun p => toString p.1 ++ ":" ++ toString p.2)

/-- The in-memory mutation performed by `configure_compose`:
`data["services"][app_name].update({"ports": [...]})`. A missing
`services` key, a missing service entry, or a non-mapping node raises
(`KeyError` / `AttributeError`), modelled as `none`. -/
def configure_compose_data (data : Yaml) (app_name : String)
    (app_docker_ports : List (Nat × Nat)) : Option Yaml :=
  match data with
  | Yaml.map top =>
    match alist_get top "services" with
    | some (Yaml.map svcs) =>
      match alist_get svcs app_name with
      | some (Yaml.map svc) =>
        some (Yaml.map (alist_set top "services"
          (Yaml.map (alist_set svcs app_name
            (Yaml.map (alist_set svc "ports"
              (Yaml.strList (portStrings app_docker_ports))))))))
      | _ => none
    | _ => none
  | _ => none

/-- Reads the ports list of the named service from a compose document. -/
def service_ports (d : Yaml) (app_name : String) : Option Yaml :=
  match d with
  | Yaml.map top =>
    match alist_get top "services" with
    | some (Yaml.map svcs) =>
      match alist_get svcs app_name with
      | some (Yaml.map svc) => alist_get svc "ports"
      | _ => none
    | _ => none
  | _ => none

/-- Embedding of `configure_compose(dir, app_name, app_docker_ports)` at
the file level: load the on-disk text through the yaml library's `load`,
mutate the document, dump it back. Any exception (unparsable input,
missing service entry) propagates before `yaml.dump` runs, so the on-disk
text is returned unchanged with a `false` completion flag. -/
def configure_compose (load : String → Option Yaml) (dump : Yaml → String)
    (disk : String) (app_name : String) (app_docker_ports : List (Nat × Nat)) :
    String × Bool :=
  match load disk with
  | none => (disk, false)
  | some data =>
    match configure_compose_data data app_name app_docker_ports with
    | none => (disk, false)
    | some d2 => (dump d2, true)

/-- Modelled from the spec: `utils.temp_env` (not in the snapshot) exposes
the keyword arguments of the call in `Webapp.build` as environment
variables, in upper-case form because `all_caps=True` is passed; the values
are exactly the expressions built in `Webapp.build` (target name,
space-joined docker ports, application port, deployment dir, domain
name). -/
def buildEnv (target_name : String) (bind_ports : List (Nat × Nat))
    (application_port : Nat) (deployment_dir domain_name : String) : Env :=
  [("TARGET_NAME", target_name),
   ("EXPOSED_PORTS", String.intercalate " " (bind_ports.map (fun p => toString p.2))),
   ("APPLICATION_PORT", toString application_port),
   ("DEPLOYMENT_DIR", deployment_dir),
   ("DOMAIN_NAME", domain_name)]

/-- The failure modes of `Webapp.build`: the `sys.exit(1)` taken when
`shutil.copytree` raises `FileExistsError`; a `KeyError` from template
substitution; an exception from the compose-configuration step. -/
inductive BuildErr : Type
  | buildExists : BuildErr
  | missingVar : String → BuildErr
  | composeFailure : BuildErr
deriving DecidableEq

/-- Embedding of `shutil.copytree(self.target_src_dir.parent,
self.app_build_dir)` inside `Webapp.build`: raises `FileExistsError`
before copying anything when the `app` subdirectory of the build directory
already exists; otherwise creates the build directory as needed and copies
the source tree (directories `srcDirs`, files `srcTree`) below `app/`.
The build-directory state is scoped to the build directory: `none` means
the directory does not exist. -/
def copyAppTree (srcDirs : List (List String)) (srcTree : List (List String × String))
    (st : Option FS) : Except BuildErr FS :=
  let f := st.getD ⟨[], []⟩
  if (["app"] : List String) ∈ f.dirs then Except.error BuildErr.buildExists
  else Except.ok ⟨(["app"] :: srcDirs.map (fun d => "app" :: d)) ++ f.dirs,
                  srcTree.map (fun pc => ("app" :: pc.1, pc.2)) ++ f.files⟩

/-- The compose-configuration step of `Webapp.build`: load
`<build>/docker-compose.yaml` (raising if it does not exist or does not
parse), mutate it, write it back. -/
def composeStep (load : String → Option Yaml) (dump : Yaml → String)
    (app_name : String) (ports : List (Nat × Nat)) (f : FS) : Except BuildErr FS :=
  match alist_get f.files ["docker-compose.yaml"] with
  | none => Except.error BuildErr.composeFailure
  | some s =>
    match load s with
    | none => Except.error BuildErr.composeFailure
    | some data =>
      match configure_compose_data data app_name ports with
      | none => Except.error BuildErr.composeFailure
      | some d2 =>
        Except.ok { f with files := alist_set f.files ["docker-compose.yaml"] (dump d2) }

/-- Embedding of `Webapp.build(clean)`. State is the build directory
(`none` = absent). If `clean`, `shutil.rmtree(..., ignore_errors=True)`
removes any existing tree first. Then: copy the source tree below `app/`,
render the webapp config templates into the build root, render the nginx
config templates below `nginx_config/`, and configure the compose file.
The first exception aborts the remaining steps, leaving the state reached
so far. Returns the final build-directory state and the failure, if any. -/
def build (clean : Bool) (target_name : String) (bind_ports : List (Nat × Nat))
    (application_port : Nat) (deployment_dir domain_name : String)
    (srcDirs : List (List String)) (srcTree : List (List String × String))
    (webappT nginxT : List (List String × TEntry))
    (load : String → Option Yaml) (dump : Yaml → String)
    (st : Option FS) : Option FS × Option BuildErr :=
  let st1 := if clean then none else st
  match copyAppTree srcDirs srcTree st1 with
  | Except.error e => (st1, some e)
  | Except.ok f1 =>
    let env := buildEnv target_name bind_ports application_port deployment_dir domain_name
    match copy_files_with_substitution env [] webappT f1 with
    | (f2, some k) => (some f2, some (BuildErr.missingVar k))
    | (f2, none) =>
      match copy_files_with_substitution env ["nginx_config"] nginxT f2 with
      | (f3, some k) => (some f3, some (BuildErr.missingVar k))
      | (f3, none) =>
        match composeStep load dump target_name bind_ports f3 with
        | Except.error e => (some f3, some e)
        | Except.ok f4 => (some f4, none)

/-- Modelled from the spec: `linux.apt_get_install(packages)` (not in the
snapshot) produces the remote package-manager command installing the named
packages. -/
def apt_get_install (packages : List String) : List String :=
  ["apt-get", "install", "-y"] ++ packages

/-- Modelled from the spec: `docker.install_docker()` (not in the
snapshot) produces the command list installing the container runtime. -/
def install_docker : List String :=
  ["sh", "-c", "install-container-runtime"]

/-- Modelled from the spec: `docker.docker_compose_build(compose_file)`
(not in the snapshot) produces the compose-based image build command for
the given compose file path. -/
def docker_compose_build (docker_compose_yaml : String) : List String :=
  ["docker", "compose", "-f", docker_compose_yaml, "build"]

/-- Modelled from the spec: `linux.chain_commands(commands, operator)`
(not in the snapshot) joins an ordered list of command-argument lists into
one composite command, inserting the join operator between consecutive
commands. -/
def chain_commands (commands : List (List String)) (operator : String) : List String :=
  match commands with
  | [] => []
  | [c] => c
  | c :: rest => c ++ operator :: chain_commands rest operator

/-- The certbot invocation built inside `set_up_ssl_cert`. -/
def certbot_cmd (domain_name : String) (email : String) : List String :=
  ["certbot", "--nginx", "--agree-tos", "--test-cert", "--non-interactive",
   "--email", email, "-d", domain_name]

/-- Embedding of `set_up_ssl_cert(domain_name, email)`: the fixed command
chain joined by the unconditional `";"` operator. -/
def set_up_ssl_cert (domain_name : String) (email : String) : List String :=
  chain_commands
    [apt_get_install ["python3", "python3-venv", "libaugeas0"],
     ["python3", "-m", "venv", "/opt/certbot/"],
     ["/opt/certbot/bin/pip", "install", "--upgrade", "pip"],
     ["/opt/certbot/bin/pip", "install", "certbot", "certbot-nginx"],
     ["ln", "-s", "/opt/certbot/bin/certbot", "/usr/bin/certbot"],
     ["pkill", "nginx"],
     certbot_cmd domain_name email,
     ["pkill", "nginx"]]
    ";"

/-- Splits a composite command at each `";"` token, recovering the chained
commands. -/
def splitSemis : List String → List (List String)
  | [] => [[]]
  | t :: rest =>
    if t = ";" then [] :: splitSemis rest
    else
      match splitSemis rest with
      | seg :: segs => (t :: seg) :: segs
      | [] => [[t]]

/-- Shell semantics of a `";"`-joined composite command: every
`";"`-separated segment is executed in order and its exit status is
recorded, but — unlike a `"&&"` join — no failure stops the chain. Returns
the executed segments with their results. -/
def execSemi (exec : List String → Bool) (composite : List String) :
    List (List String × Bool) :=
  (splitSemis composite).map (fun seg => (seg, exec seg))

/-- The outcome the ssh wrapper reports for one remote command: a
success/failure signal, or a raised error (connection failure and the
like) that propagates out of `deploy`. -/
inductive RunOutcome : Type
  | ok : Bool → RunOutcome
  | raised : RunOutcome
deriving DecidableEq

/-- Modelled from the spec: the behaviour of one `ssh.SSHSession` (the
wrapper is not in the snapshot). `session.run(cmd)` returns a
success/failure signal — `true` meaning the remote command succeeded — or
raises; `session.upload` either succeeds or raises. -/
structure SessionModel : Type where
  runSig : List String → RunOutcome
  uploadOk : Bool

/-- One observable session event issued by `deploy`. -/
inductive DeployEvent : Type
  | run : List String → DeployEvent
  | upload : String → DeployEvent
deriving DecidableEq

/-- The probe for the container runtime in `Webapp.deploy`. -/
def dockerProbe : List String := ["command", "-v", "docker", ">/dev/null 2>&1"]

/-- The probe for the Python shim in `Webapp.deploy`. -/
def pythonProbe : List String := ["command", "-v", "python", ">/dev/null 2>&1"]

/-- The probe for the reverse proxy in `Webapp.deploy`. -/
def nginxProbe : List String := ["command", "-v", "nginx", ">/dev/null 2>&1"]

/-- The `cp -r <deployment_dir>/nginx_config/. /etc/nginx/` step of
`Webapp.deploy`. -/
def cp_nginx_config (deployment_dir : String) : List String :=
  ["cp", "-r", deployment_dir ++ "/nginx_config" ++ "/.", "/etc/nginx/"]

/-- Runs one `session.run(cmd)` call: a raised error aborts the deploy
with the trace so far; otherwise the continuation receives the signal. -/
def runStep (s : SessionModel) (cmd : List String)
    (k : Bool → List DeployEvent × Bool) : List DeployEvent × Bool :=
  match s.runSig cmd with
  | RunOutcome.raised => ([DeployEvent.run cmd], false)
  | RunOutcome.ok b => (DeployEvent.run cmd :: (k b).1, (k b).2)

/-- Runs a list of `session.run` calls whose signals are ignored (only a
raised error aborts). -/
def runSeq (s : SessionModel) (cmds : List (List String))
    (k : List DeployEvent × Bool) : List DeployEvent × Bool :=
  match cmds with
  | [] => k
  | c :: rest => runStep s c (fun _ => runSeq s rest k)

/-- Runs the `session.upload` call of `deploy`. -/
def uploadStep (s : SessionModel) (deployment_dir : String)
    (k : List DeployEvent × Bool) : List DeployEvent × Bool :=
  if s.uploadOk then (DeployEvent.upload deployment_dir :: k.1, k.2)
  else ([DeployEvent.upload deployment_dir], false)

/-- Embedding of `Webapp.deploy`, line by line: three probe/conditional
install blocks (the install commands run when the probe's signal is
`true`), then upload, nginx-config copy, compose build, certificate setup
and nginx reload, each issued unconditionally with its result signal
ignored. Returns the session trace and whether the body completed without
a raised error. -/
def deploy (deployment_dir domain_name email : String) (s : SessionModel) :
    List DeployEvent × Bool :=
  runStep s dockerProbe (fun b1 =>
    runSeq s (if b1 then [install_docker] else []) (
    runStep s pythonProbe (fun b2 =>
      runSeq s (if b2 then [apt_get_install ["python-is-python3"]] else []) (
      runStep s nginxProbe (fun b3 =>
        runSeq s (if b3 then
            [apt_get_install ["nginx"],
             ["rm", "/etc/nginx/sites-available/default"],
             ["rm", "/etc/nginx/sites-enabled/default"]]
          else []) (
        uploadStep s deployment_dir (
        runSeq s
          [cp_nginx_config deployment_dir,
           docker_compose_build (deployment_dir ++ "/docker-compose.yaml"),
           set_up_ssl_cert domain_name email,
           ["service", "nginx", "reload"]]
          ([], true))))))))

/-- One step issued by `Webapp.deploy`: a `session.run` command or the
artifact upload. -/
inductive DeployStep : Type
  | runCmd : List String → DeployStep
  | uploadArtifact : String → DeployStep
deriving DecidableEq

/-- The session event a step produces when issued. -/
def stepEvent : DeployStep → DeployEvent
  | DeployStep.runCmd c => DeployEvent.run c
  | DeployStep.uploadArtifact d => DeployEvent.upload d

/-- Whether a step raises under the given session behaviour. -/
def stepRaises (s : SessionModel) : DeployStep → Bool
  | DeployStep.runCmd c =>
    match s.runSig c with
    | RunOutcome.raised => true
    | RunOutcome.ok _ => false
  | DeployStep.uploadArtifact _ => !s.uploadOk

/-- Sequential executor of deploy steps: each step is issued in order;
the first raising step ends the run with a failure flag and none of the
later steps is issued — the exception behaviour of the `with` block in
`Webapp.deploy`. Result signals of issued steps are ignored. -/
def runSteps (s : SessionModel) : List DeployStep → List DeployEvent × Bool
  | [] => ([], true)
  | st :: rest =>
    if stepRaises s st then ([stepEvent st], false)
    else (stepEvent st :: (runSteps s rest).1, (runSteps s rest).2)

/-- The step list `Webapp.deploy` issues against a session with the given
behaviour: each probe followed by its conditional install commands
(present exactly when the probe's signal is success), then upload,
reverse-proxy config copy, remote compose build, certificate setup and
proxy reload, in that order. -/
def deploySteps (deployment_dir domain_name email : String) (s : SessionModel) :
    List DeployStep :=
  DeployStep.runCmd dockerProbe ::
    ((if s.runSig dockerProbe = RunOutcome.ok true
        then [DeployStep.runCmd install_docker] else []) ++
      (DeployStep.runCmd pythonProbe ::
        ((if s.runSig pythonProbe = RunOutcome.ok true
            then [DeployStep.runCmd (apt_get_install ["python-is-python3"])] else []) ++
          (DeployStep.runCmd nginxProbe ::
            ((if s.runSig nginxProbe = RunOutcome.ok true
                then [DeployStep.runCmd (apt_get_install ["nginx"]),
                      DeployStep.runCmd ["rm", "/etc/nginx/sites-available/default"],
                      DeployStep.runCmd ["rm", "/etc/nginx/sites-enabled/default"]]
              else []) ++
              (DeployStep.uploadArtifact deployment_dir ::
                [DeployStep.runCmd (cp_nginx_config deployment_dir),
                 DeployStep.runCmd (docker_compose_build
                   (deployment_dir ++ "/docker-compose.yaml")),
                 DeployStep.runCmd (set_up_ssl_cert domain_name email),
                 DeployStep.runCmd ["service", "nginx", "reload"]]))))))

/-! ### Lemmas and claim theorems -/

theorem alist_get_set_self {α β : Type} [DecidableEq α]
    (l : List (α × β)) (k : α) (v : β) :
    alist_get (alist_set l k v) k = some v := by
  induction l with
  | nil => simp [alist_get, alist_set]
  | cons hd tl ih =>
    obtain ⟨a, b⟩ := hd
    by_cases h : a = k
    · simp [alist_get, alist_set, h]
    · simp [alist_get, alist_set, h, ih]

theorem alist_get_set_ne {α β : Type} [DecidableEq α]
    (l : List (α × β)) (k k' : α) (v : β) (h : k' ≠ k) :
    alist_get (alist_set l k v) k' = alist_get l k' := by
  have hk : k ≠ k' := fun hh => h hh.symm
  induction l with
  | nil => simp [alist_get, alist_set, hk]
  | cons hd tl ih =>
    obtain ⟨a, b⟩ := hd
    by_cases ha : a = k
    · subst ha
      simp [alist_get, alist_set, hk]
    · simp only [alist_set, if_neg ha]
      by_cases ha' : a = k'
      · simp [alist_get, ha']
      · simp [alist_get, ha', ih]

theorem substChunks_ok_of_resolved (env : Env) (cs : List Chunk)
    (h : ∀ c ∈ cs, chunkOk env c = true) :
    ∃ s, substChunks env cs = Except.ok s := by
  induction cs with
  | nil => exact ⟨"", rfl⟩
  | cons c rest ih =>
    obtain ⟨t, ht⟩ := ih (fun c hc => h c (List.mem_cons_of_mem _ hc))
    cases c with
    | lit s => exact ⟨s ++ t, by simp [substChunks, ht]⟩
    | var k =>
      have hk := h (Chunk.var k) (List.mem_cons_self _ _)
      simp only [chunkOk, Option.isSome_iff_exists] at hk
      obtain ⟨v, hv⟩ := hk
      exact ⟨v ++ t, by simp [substChunks, hv, ht]⟩

theorem substChunks_error_missing (env : Env) (cs : List Chunk) (k : String)
    (h : substChunks env cs = Except.error k) :
    Chunk.var k ∈ cs ∧ alist_get env k = none := by
  induction cs with
  | nil => simp [substChunks] at h
  | cons c rest ih =>
    cases c with
    | lit s =>
      simp only [substChunks] at h
      cases hrest : substChunks env rest with
      | ok t => rw [hrest] at h; exact absurd h (by simp)
      | error k' =>
        rw [hrest] at h
        injection h with h'
        subst h'
        obtain ⟨hm, hn⟩ := ih hrest
        exact ⟨List.mem_cons_of_mem _ hm, hn⟩
    | var k0 =>
      simp only [substChunks] at h
      cases hk0 : alist_get env k0 with
      | none =>
        rw [hk0] at h
        injection h with h'
        subst h'
        exact ⟨List.mem_cons_self _ _, hk0⟩
      | some v =>
        rw [hk0] at h
        cases hrest : substChunks env rest with
        | ok t => rw [hrest] at h; exact absurd h (by simp)
        | error k' =>
          rw [hrest] at h
          injection h with h'
          subst h'
          obtain ⟨hm, hn⟩ := ih hrest
          exact ⟨List.mem_cons_of_mem _ hm, hn⟩

theorem substChunks_fails_of_missing (env : Env) (cs : List Chunk) (k : String)
    (hmem : Chunk.var k ∈ cs) (hmiss : alist_get env k = none) :
    ∃ k', substChunks env cs = Except.error k' ∧ alist_get env k' = none := by
  induction cs with
  | nil => simp at hmem
  | cons c rest ih =>
    cases List.mem_cons.mp hmem with
    | inl hc =>
      subst hc
      exact ⟨k, by simp [substChunks, hmiss], hmiss⟩
    | inr hc =>
      obtain ⟨k', hk', hn'⟩ := ih hc
      cases c with
      | lit s0 => exact ⟨k', by simp [substChunks, hk'], hn'⟩
      | var k0 =>
        cases hk0 : alist_get env k0 with
        | none => exact ⟨k0, by simp [substChunks, hk0], hk0⟩
        | some v => exact ⟨k', by simp [substChunks, hk0, hk'], hn'⟩

theorem entryOk_file_subst (env : Env) (cs : List Chunk)
    (h : entryOk env (TEntry.file cs) = true) :
    ∃ s, substChunks env cs = Except.ok s := by
  refine substChunks_ok_of_resolved env cs ?_
  simpa [entryOk, List.all_eq_true] using h

theorem renderLoop_append (env : Env) (base : List String)
    (l1 l2 : List (List String × TEntry)) (f : FS) :
    renderLoop env base (l1 ++ l2) f =
      match renderLoop env base l1 f with
      | (f1, some k) => (f1, some k)
      | (f1, none) => renderLoop env base l2 f1 := by
  induction l1 generalizing f with
  | nil => simp [renderLoop]
  | cons hd tl ih =>
    obtain ⟨rel, e⟩ := hd
    cases e with
    | dir => simpa [renderLoop] using ih _
    | file cs =>
      cases hsub : substChunks env cs with
      | error k => simp [renderLoop, hsub]
      | ok s => simpa [renderLoop, hsub] using ih _

theorem renderLoop_files_preserve (env : Env) (base : List String)
    (ts : List (List String × TEntry)) (f : FS) (q : List String)
    (h : ∀ p ∈ ts, q ≠ base ++ p.1) :
    alist_get (renderLoop env base ts f).1.files q = alist_get f.files q := by
  induction ts generalizing f with
  | nil => rfl
  | cons hd tl ih =>
    obtain ⟨rel, e⟩ := hd
    have hq : q ≠ base ++ rel := h (rel, e) (List.mem_cons_self _ _)
    have htl : ∀ p ∈ tl, q ≠ base ++ p.1 :=
      fun p hp => h p (List.mem_cons_of_mem _ hp)
    cases e with
    | dir => simpa [renderLoop] using ih _ htl
    | file cs =>
      cases hsub : substChunks env cs with
      | error k => simp [renderLoop, hsub]
      | ok s =>
        simp only [renderLoop, hsub]
        rw [ih _ htl]
        exact alist_get_set_ne _ _ _ _ hq

theorem renderLoop_dirs_mono (env : Env) (base : List String)
    (ts : List (List String × TEntry)) (f : FS) (d : List String)
    (h : d ∈ f.dirs) :
    d ∈ (renderLoop env base ts f).1.dirs := by
  induction ts generalizing f with
  | nil => exact h
  | cons hd tl ih =>
    obtain ⟨rel, e⟩ := hd
    cases e with
    | dir => exact ih _ (List.mem_cons_of_mem _ h)
    | file cs =>
      cases hsub : substChunks env cs with
      | error k => simpa [renderLoop, hsub] using h
      | ok s =>
        simp only [renderLoop, hsub]
        exact ih _ h

theorem renderLoop_ok (env : Env) (base : List String)
    (ts : List (List String × TEntry)) (f : FS)
    (h : ∀ p ∈ ts, entryOk env p.2 = true) :
    (renderLoop env base ts f).2 = none := by
  induction ts generalizing f with
  | nil => rfl
  | cons hd tl ih =>
    obtain ⟨rel, e⟩ := hd
    have htl : ∀ p ∈ tl, entryOk env p.2 = true :=
      fun p hp => h p (List.mem_cons_of_mem _ hp)
    cases e with
    | dir => simpa [renderLoop] using ih _ htl
    | file cs =>
      obtain ⟨s, hs⟩ := entryOk_file_subst env cs (h (rel, TEntry.file cs) (List.mem_cons_self _ _))
      simp only [renderLoop, hs]
      exact ih _ htl

theorem renderLoop_writes (env : Env) (base : List String)
    (ts : List (List String × TEntry)) (f : FS)
    (hok : ∀ p ∈ ts, entryOk env p.2 = true)
    (hnd : (ts.map Prod.fst).Nodup)
    (rel : List String) (cs : List Chunk)
    (hmem : (rel, TEntry.file cs) ∈ ts) :
    ∃ s, substChunks env cs = Except.ok s ∧
      alist_get (renderLoop env base ts f).1.files (base ++ rel) = some s := by
  induction ts generalizing f with
  | nil => simp at hmem
  | cons hd tl ih =>
    obtain ⟨r, e⟩ := hd
    rw [List.map_cons] at hnd
    obtain ⟨hr, hnd'⟩ := List.nodup_cons.mp hnd
    have htl : ∀ p ∈ tl, entryOk env p.2 = true :=
      fun p hp => hok p (List.mem_cons_of_mem _ hp)
    cases List.mem_cons.mp hmem with
    | inl hc =>
      have h1 : rel = r := congrArg Prod.fst hc
      have h2 : TEntry.file cs = e := congrArg Prod.snd hc
      subst h1
      subst h2
      obtain ⟨s, hs⟩ := entryOk_file_subst env cs (hok _ (List.mem_cons_self _ _))
      refine ⟨s, hs, ?_⟩
      simp only [renderLoop, hs]
      rw [renderLoop_files_preserve env base tl _ (base ++ rel) ?_]
      · exact alist_get_set_self _ _ _
      · intro p hp hcontra
        have heq : rel = p.1 := List.append_cancel_left hcontra
        exact hr (List.mem_map.mpr ⟨p, hp, heq.symm⟩)
    | inr hc =>
      cases e with
      | dir => simpa [renderLoop] using ih _ htl hnd' hc
      | file cs0 =>
        obtain ⟨s0, hs0⟩ := entryOk_file_subst env cs0 (hok _ (List.mem_cons_self _ _))
        simp only [renderLoop, hs0]
        exact ih _ htl hnd' hc

theorem renderLoop_fail (env : Env) (base : List String)
    (ts : List (List String × TEntry)) (f : FS)
    (rel : List String) (cs : List Chunk) (k0 : String)
    (hmem : (rel, TEntry.file cs) ∈ ts)
    (hfail : substChunks env cs = Except.error k0)
    (hnd : (ts.map Prod.fst).Nodup) :
    ∃ k', (renderLoop env base ts f).2 = some k' ∧ alist_get env k' = none ∧
      alist_get (renderLoop env base ts f).1.files (base ++ rel) =
        alist_get f.files (base ++ rel) := by
  induction ts generalizing f with
  | nil => simp at hmem
  | cons hd tl ih =>
    obtain ⟨r, e⟩ := hd
    rw [List.map_cons] at hnd
    obtain ⟨hr, hnd'⟩ := List.nodup_cons.mp hnd
    cases List.mem_cons.mp hmem with
    | inl hc =>
      have h1 : rel = r := congrArg Prod.fst hc
      have h2 : TEntry.file cs = e := congrArg Prod.snd hc
      subst h1
      subst h2
      exact ⟨k0, by simp [renderLoop, hfail],
        (substChunks_error_missing env cs k0 hfail).2, by simp [renderLoop, hfail]⟩
    | inr hc =>
      have hrel_mem : rel ∈ tl.map Prod.fst :=
        List.mem_map.mpr ⟨(rel, TEntry.file cs), hc, rfl⟩
      cases e with
      | dir =>
        obtain ⟨k', h1, h2, h3⟩ := ih { f with dirs := (base ++ r) :: f.dirs } hc hnd'
        exact ⟨k', by simpa [renderLoop] using h1, h2, by simpa [renderLoop] using h3⟩
      | file cs0 =>
        cases hsub : substChunks env cs0 with
        | error k1 =>
          exact ⟨k1, by simp [renderLoop, hsub],
            (substChunks_error_missing env cs0 k1 hsub).2, by simp [renderLoop, hsub]⟩
        | ok s0 =>
          obtain ⟨k', h1, h2, h3⟩ :=
            ih { f with files := alist_set f.files (base ++ r) s0 } hc hnd'
          refine ⟨k', by simpa [renderLoop, hsub] using h1, h2, ?_⟩
          have hne : base ++ rel ≠ base ++ r := by
            intro hcontra
            exact hr (List.append_cancel_left hcontra ▸ hrel_mem)
          calc alist_get (renderLoop env base ((r, TEntry.file cs0) :: tl) f).1.files (base ++ rel)
              = alist_get (renderLoop env base tl
                  { f with files := alist_set f.files (base ++ r) s0 }).1.files (base ++ rel) := by
                simp [renderLoop, hsub]
            _ = alist_get (alist_set f.files (base ++ r) s0) (base ++ rel) := h3
            _ = alist_get f.files (base ++ rel) := alist_get_set_ne _ _ _ _ hne

/-- Claim C4: for every template file referencing a placeholder that has
no entry in the template environment, rendering fails with a `KeyError`
naming a key missing from the environment (rather than substituting blank
text), and nothing is written to that file's destination path. -/
theorem C4_missing_placeholder_fails_writes_nothing
    (env : Env) (base : List String) (templates : List (List String × TEntry))
    (f : FS) (rel : List String) (cs : List Chunk) (k : String)
    (hmem : (rel, TEntry.file cs) ∈ templates)
    (hvar : Chunk.var k ∈ cs)
    (hmiss : alist_get env k = none)
    (hnd : (templates.map Prod.fst).Nodup) :
    ∃ k', (copy_files_with_substitution env base templates f).2 = some k' ∧
      alist_get env k' = none ∧
      alist_get (copy_files_with_substitution env base templates f).1.files (base ++ rel) =
        alist_get f.files (base ++ rel) := by
  obtain ⟨k0, hk0, _⟩ := substChunks_fails_of_missing env cs k hvar hmiss
  exact renderLoop_fail env base templates
    { f with dirs := base :: f.dirs } rel cs k0 hmem hk0 hnd

/-- Witness for C4: the environment binds only `A`, the single template
file references `B`; rendering errors with the missing key `B` and the
destination file is absent afterwards. -/
theorem C4_missing_placeholder_fails_writes_nothing_witness :
    ∃ k', (copy_files_with_substitution [("A", "1")] []
        [(["conf.txt"], TEntry.file [Chunk.var "B"])] ⟨[], []⟩).2 = some k' ∧
      alist_get ([("A", "1")] : Env) k' = none ∧
      alist_get (copy_files_with_substitution [("A", "1")] []
          [(["conf.txt"], TEntry.file [Chunk.var "B"])] ⟨[], []⟩).1.files
          ([] ++ ["conf.txt"]) =
        alist_get (FS.mk [] []).files ([] ++ ["conf.txt"]) :=
  C4_missing_placeholder_fails_writes_nothing [("A", "1")] []
    [(["conf.txt"], TEntry.file [Chunk.var "B"])] ⟨[], []⟩ ["conf.txt"]
    [Chunk.var "B"] "B" (by decide) (by decide) (by decide) (by decide)

/-- Claim C9: with an environment resolving every placeholder of the
template set, rendering never fails and the contents written for each
template file are fully determined by the templates and the environment —
two runs from any two destination states (in particular two fresh
destinations) produce byte-identical contents at every rendered path. -/
theorem C9_render_deterministic
    (env : Env) (base : List String) (templates : List (List String × TEntry))
    (f1 f2 : FS)
    (hok : ∀ p ∈ templates, entryOk env p.2 = true)
    (hnd : (templates.map Prod.fst).Nodup) :
    (copy_files_with_substitution env base templates f1).2 = none ∧
    (copy_files_with_substitution env base templates f2).2 = none ∧
    ∀ rel cs, (rel, TEntry.file cs) ∈ templates →
      ∃ s, substChunks env cs = Except.ok s ∧
        alist_get (copy_files_with_substitution env base templates f1).1.files
          (base ++ rel) = some s ∧
        alist_get (copy_files_with_substitution env base templates f2).1.files
          (base ++ rel) = some s := by
  refine ⟨renderLoop_ok env base templates _ hok,
    renderLoop_ok env base templates _ hok, ?_⟩
  intro rel cs hmem
  obtain ⟨s, hs, h1⟩ := renderLoop_writes env base templates
    { f1 with dirs := base :: f1.dirs } hok hnd rel cs hmem
  obtain ⟨s', hs', h2⟩ := renderLoop_writes env base templates
    { f2 with dirs := base :: f2.dirs } hok hnd rel cs hmem
  injection hs.symm.trans hs' with hss
  subst hss
  exact ⟨s, hs, h1, h2⟩

/-- Witness for C9 at a concrete template set: the environment resolves
the placeholder, and two runs from two different destinations write the
same contents. -/
theorem C9_render_deterministic_witness :
    (copy_files_with_substitution [("A", "1")] []
      [(["t"], TEntry.file [Chunk.lit "x=", Chunk.var "A"])] ⟨[], []⟩).2 = none ∧
    (copy_files_with_substitution [("A", "1")] []
      [(["t"], TEntry.file [Chunk.lit "x=", Chunk.var "A"])] ⟨[["old"]], [(["t"], "stale")]⟩).2 = none ∧
    ∀ rel cs, (rel, TEntry.file cs) ∈
        [(["t"], TEntry.file [Chunk.lit "x=", Chunk.var "A"])] →
      ∃ s, substChunks [("A", "1")] cs = Except.ok s ∧
        alist_get (copy_files_with_substitution [("A", "1")] []
          [(["t"], TEntry.file [Chunk.lit "x=", Chunk.var "A"])] ⟨[], []⟩).1.files
          ([] ++ rel) = some s ∧
        alist_get (copy_files_with_substitution [("A", "1")] []
          [(["t"], TEntry.file [Chunk.lit "x=", Chunk.var "A"])]
          ⟨[["old"]], [(["t"], "stale")]⟩).1.files ([] ++ rel) = some s :=
  C9_render_deterministic [("A", "1")] []
    [(["t"], TEntry.file [Chunk.lit "x=", Chunk.var "A"])]
    ⟨[], []⟩ ⟨[["old"]], [(["t"], "stale")]⟩ (by decide) (by decide)

/-- Claim C10: rendering is not atomic across a template set — when a
template file fails to substitute, the destination directory and every
file rendered for templates processed before the failing one remain on
disk, while the failing file and all templates after it stay unwritten. -/
theorem C10_render_partial_on_failure
    (env : Env) (base : List String)
    (pre post : List (List String × TEntry)) (relF : List String) (csF : List Chunk)
    (k : String) (f : FS)
    (hpre : ∀ p ∈ pre, entryOk env p.2 = true)
    (hfail : substChunks env csF = Except.error k)
    (hnd : ((pre ++ (relF, TEntry.file csF) :: post).map Prod.fst).Nodup) :
    (copy_files_with_substitution env base (pre ++ (relF, TEntry.file csF) :: post) f).2
        = some k ∧
    base ∈ (copy_files_with_substitution env base
        (pre ++ (relF, TEntry.file csF) :: post) f).1.dirs ∧
    (∀ q ds, (q, TEntry.file ds) ∈ pre →
      ∃ s, substChunks env ds = Except.ok s ∧
        alist_get (copy_files_with_substitution env base
          (pre ++ (relF, TEntry.file csF) :: post) f).1.files (base ++ q) = some s) ∧
    alist_get (copy_files_with_substitution env base
        (pre ++ (relF, TEntry.file csF) :: post) f).1.files (base ++ relF) =
      alist_get f.files (base ++ relF) ∧
    (∀ p ∈ post,
      alist_get (copy_files_with_substitution env base
        (pre ++ (relF, TEntry.file csF) :: post) f).1.files (base ++ p.1) =
      alist_get f.files (base ++ p.1)) := by
  rw [List.map_append, List.map_cons] at hnd
  obtain ⟨hndPre, hndCons, hdisj⟩ := List.nodup_append.mp hnd
  have hrelF_pre : relF ∉ pre.map Prod.fst :=
    fun hmem => hdisj hmem (List.mem_cons_self _ _)
  have hpost_pre : ∀ p ∈ post, p.1 ∉ pre.map Prod.fst := by
    intro p hp hmem
    exact hdisj hmem (List.mem_cons_of_mem _ (List.mem_map.mpr ⟨p, hp, rfl⟩))
  set f0 : FS := { f with dirs := base :: f.dirs } with hf0
  have hpreRun : (renderLoop env base pre f0).2 = none := renderLoop_ok env base pre f0 hpre
  have hsplit : renderLoop env base (pre ++ (relF, TEntry.file csF) :: post) f0 =
      ((renderLoop env base pre f0).1, some k) := by
    rw [renderLoop_append]
    cases hrun : renderLoop env base pre f0 with
    | mk fp e =>
      cases e with
      | some k1 => rw [hrun] at hpreRun; simp at hpreRun
      | none => simp [renderLoop, hfail]
  have hcopy : copy_files_with_substitution env base
      (pre ++ (relF, TEntry.file csF) :: post) f =
      ((renderLoop env base pre f0).1, some k) := hsplit
  refine ⟨by rw [hcopy], ?_, ?_, ?_, ?_⟩
  · rw [hcopy]
    exact renderLoop_dirs_mono env base pre f0 base (List.mem_cons_self _ _)
  · intro q ds hq
    obtain ⟨s, hs, hw⟩ := renderLoop_writes env base pre f0 hpre hndPre q ds hq
    exact ⟨s, hs, by rw [hcopy]; exact hw⟩
  · rw [hcopy]
    refine renderLoop_files_preserve env base pre f0 (base ++ relF) ?_
    intro p hp hcontra
    exact hrelF_pre (List.append_cancel_left hcontra ▸ List.mem_map.mpr ⟨p, hp, rfl⟩)
  · intro p hp
    rw [hcopy]
    refine renderLoop_files_preserve env base pre f0 (base ++ p.1) ?_
    intro p' hp' hcontra
    exact hpost_pre p hp (List.append_cancel_left hcontra ▸ List.mem_map.mpr ⟨p', hp', rfl⟩)

/-- Witness for C10: the first template renders, the second fails on the
unbound key `M`, the third is never written; the destination directory and
the first file remain. -/
theorem C10_render_partial_on_failure_witness :
    (copy_files_with_substitution [("A", "1")] ["out"]
        ([(["a"], TEntry.file [Chunk.var "A"])] ++
          (["b"], TEntry.file [Chunk.var "M"]) ::
          [(["c"], TEntry.file [Chunk.lit "y"])]) ⟨[], []⟩).2 = some "M" ∧
    ["out"] ∈ (copy_files_with_substitution [("A", "1")] ["out"]
        ([(["a"], TEntry.file [Chunk.var "A"])] ++
          (["b"], TEntry.file [Chunk.var "M"]) ::
          [(["c"], TEntry.file [Chunk.lit "y"])]) ⟨[], []⟩).1.dirs ∧
    (∀ q ds, (q, TEntry.file ds) ∈ [(["a"], TEntry.file [Chunk.var "A"])] →
      ∃ s, substChunks [("A", "1")] ds = Except.ok s ∧
        alist_get (copy_files_with_substitution [("A", "1")] ["out"]
          ([(["a"], TEntry.file [Chunk.var "A"])] ++
            (["b"], TEntry.file [Chunk.var "M"]) ::
            [(["c"], TEntry.file [Chunk.lit "y"])]) ⟨[], []⟩).1.files
          (["out"] ++ q) = some s) ∧
    alist_get (copy_files_with_substitution [("A", "1")] ["out"]
        ([(["a"], TEntry.file [Chunk.var "A"])] ++
          (["b"], TEntry.file [Chunk.var "M"]) ::
          [(["c"], TEntry.file [Chunk.lit "y"])]) ⟨[], []⟩).1.files
        (["out"] ++ ["b"]) = alist_get (FS.mk [] []).files (["out"] ++ ["b"]) ∧
    (∀ p ∈ [(["c"], TEntry.file [Chunk.lit "y"])],
      alist_get (copy_files_with_substitution [("A", "1")] ["out"]
        ([(["a"], TEntry.file [Chunk.var "A"])] ++
          (["b"], TEntry.file [Chunk.var "M"]) ::
          [(["c"], TEntry.file [Chunk.lit "y"])]) ⟨[], []⟩).1.files
        (["out"] ++ p.1) = alist_get (FS.mk [] []).files (["out"] ++ p.1)) :=
  C10_render_partial_on_failure [("A", "1")] ["out"]
    [(["a"], TEntry.file [Chunk.var "A"])]
    [(["c"], TEntry.file [Chunk.lit "y"])]
    ["b"] [Chunk.var "M"] "M" ⟨[], []⟩ (by decide) rfl (by decide)

/-- Claim C3: for every compose document containing a service entry keyed
by the target name, mutating it with the port mapping `{8080: 80, 8443:
443}` sets that service's `ports` field to exactly `["8080:80",
"8443:443"]` in the mapping's insertion order, and leaves every key of the
document other than that service's `ports` field unchanged. -/
theorem C3_configure_compose_ports
    (top svcs svc : List (String × Yaml)) (app_name : String)
    (hsvcs : alist_get top "services" = some (Yaml.map svcs))
    (happ : alist_get svcs app_name = some (Yaml.map svc)) :
    ∃ top' svcs' svc',
      configure_compose_data (Yaml.map top) app_name [(8080, 80), (8443, 443)] =
        some (Yaml.map top') ∧
      alist_get top' "services" = some (Yaml.map svcs') ∧
      alist_get svcs' app_name = some (Yaml.map svc') ∧
      alist_get svc' "ports" = some (Yaml.strList ["8080:80", "8443:443"]) ∧
      (∀ key, key ≠ "services" → alist_get top' key = alist_get top key) ∧
      (∀ key, key ≠ app_name → alist_get svcs' key = alist_get svcs key) ∧
      (∀ key, key ≠ "ports" → alist_get svc' key = alist_get svc key) := by
  refine ⟨alist_set top "services" (Yaml.map (alist_set svcs app_name
      (Yaml.map (alist_set svc "ports"
        (Yaml.strList (portStrings [(8080, 80), (8443, 443)])))))),
    alist_set svcs app_name (Yaml.map (alist_set svc "ports"
      (Yaml.strList (portStrings [(8080, 80), (8443, 443)])))),
    alist_set svc "ports" (Yaml.strList (portStrings [(8080, 80), (8443, 443)])),
    ?_, ?_, ?_, ?_, ?_, ?_, ?_⟩
  · simp [configure_compose_data, hsvcs, happ]
  · exact alist_get_set_self _ _ _
  · exact alist_get_set_self _ _ _
  · rw [alist_get_set_self]
    rfl
  · intro key hkey
    exact alist_get_set_ne _ _ _ _ hkey
  · intro key hkey
    exact alist_get_set_ne _ _ _ _ hkey
  · intro key hkey
    exact alist_get_set_ne _ _ _ _ hkey

/-- Witness for C3 at a concrete compose document with a `web` service and
unrelated keys beside and inside it. -/
theorem C3_configure_compose_ports_witness :
    ∃ top' svcs' svc',
      configure_compose_data (Yaml.map [("services", Yaml.map [("web",
          Yaml.map [("build", Yaml.str "."), ("ports", Yaml.nullV)])]),
          ("volumes", Yaml.nullV)]) "web" [(8080, 80), (8443, 443)] =
        some (Yaml.map top') ∧
      alist_get top' "services" = some (Yaml.map svcs') ∧
      alist_get svcs' "web" = some (Yaml.map svc') ∧
      alist_get svc' "ports" = some (Yaml.strList ["8080:80", "8443:443"]) ∧
      (∀ key, key ≠ "services" → alist_get top' key =
        alist_get [("services", Yaml.map [("web",
          Yaml.map [("build", Yaml.str "."), ("ports", Yaml.nullV)])]),
          ("volumes", Yaml.nullV)] key) ∧
      (∀ key, key ≠ "web" → alist_get svcs' key =
        alist_get [("web", Yaml.map [("build", Yaml.str "."),
          ("ports", Yaml.nullV)])] key) ∧
      (∀ key, key ≠ "ports" → alist_get svc' key =
        alist_get [("build", Yaml.str "."), ("ports", Yaml.nullV)] key) :=
  C3_configure_compose_ports
    [("services", Yaml.map [("web", Yaml.map [("build", Yaml.str "."),
      ("ports", Yaml.nullV)])]), ("volumes", Yaml.nullV)]
    [("web", Yaml.map [("build", Yaml.str "."), ("ports", Yaml.nullV)])]
    [("build", Yaml.str "."), ("ports", Yaml.nullV)]
    "web" rfl rfl

/-- Claim C5: mutating a compose document that lacks a service entry keyed
by the target name raises before anything is dumped, so the operation
fails and the on-disk document text is left byte-for-byte unmodified. -/
theorem C5_configure_compose_missing_service
    (load : String → Option Yaml) (dump : Yaml → String) (disk : String)
    (app_name : String) (ports : List (Nat × Nat)) (top svcs : List (String × Yaml))
    (hload : load disk = some (Yaml.map top))
    (hsvcs : alist_get top "services" = some (Yaml.map svcs))
    (happ : alist_get svcs app_name = none) :
    configure_compose load dump disk app_name ports = (disk, false) := by
  simp [configure_compose, hload, configure_compose_data, hsvcs, happ]

/-- Witness for C5: a document whose `services` mapping holds only
`other`; configuring service `web` fails and returns the disk text
unchanged. -/
theorem C5_configure_compose_missing_service_witness :
    configure_compose
      (fun s => if s = "services:\n  other: x\n" then
        some (Yaml.map [("services", Yaml.map [("other", Yaml.map [])])]) else none)
      (fun _ => "")
      "services:\n  other: x\n" "web" [(8080, 80)] =
      ("services:\n  other: x\n", false) :=
  C5_configure_compose_missing_service
    (fun s => if s = "services:\n  other: x\n" then
      some (Yaml.map [("services", Yaml.map [("other", Yaml.map [])])]) else none)
    (fun _ => "")
    "services:\n  other: x\n" "web" [(8080, 80)]
    [("services", Yaml.map [("other", Yaml.map [])])]
    [("other", Yaml.map [])]
    rfl rfl rfl

theorem alist_get_of_mem_nodup {α β : Type} [DecidableEq α]
    (l : List (α × β)) (p : α) (c : β)
    (hnd : (l.map Prod.fst).Nodup) (hmem : (p, c) ∈ l) :
    alist_get l p = some c := by
  induction l with
  | nil => simp at hmem
  | cons hd tl ih =>
    obtain ⟨a, b⟩ := hd
    rw [List.map_cons] at hnd
    obtain ⟨ha, hnd'⟩ := List.nodup_cons.mp hnd
    cases List.mem_cons.mp hmem with
    | inl hc =>
      have h1 : p = a := congrArg Prod.fst hc
      have h2 : c = b := congrArg Prod.snd hc
      subst h1
      subst h2
      simp [alist_get]
    | inr hc =>
      have hap : a ≠ p :=
        fun hh => ha (by rw [hh]; exact List.mem_map.mpr ⟨(p, c), hc, rfl⟩)
      simp [alist_get, hap, ih hnd' hc]

theorem alist_get_map_inj {α β γ : Type} [DecidableEq α] [DecidableEq γ]
    (g : α → γ) (hg : ∀ a b, g a = g b → a = b) (l : List (α × β)) (p : α) :
    alist_get (l.map (fun pc => (g pc.1, pc.2))) (g p) = alist_get l p := by
  induction l with
  | nil => rfl
  | cons hd tl ih =>
    obtain ⟨a, b⟩ := hd
    by_cases h : a = p
    · subst h
      simp [alist_get]
    · have hng : g a ≠ g p := fun hh => h (hg _ _ hh)
      simp [alist_get, h, hng, ih]

/-- Claim C6 (amended): `build(clean=False)` fails fatally with the
build-collision error and leaves the build directory unchanged whenever
the build directory already contains the `app` subdirectory — which holds
for any directory produced by a prior build. A pre-existing build
directory without the `app` subdirectory does not trigger the failure
(see the counterexample theorem). -/
theorem C6_build_collision_app_exists
    (target_name : String) (bind_ports : List (Nat × Nat)) (application_port : Nat)
    (deployment_dir domain_name : String)
    (srcDirs : List (List String)) (srcTree : List (List String × String))
    (webappT nginxT : List (List String × TEntry))
    (load : String → Option Yaml) (dump : Yaml → String) (f : FS)
    (happ : (["app"] : List String) ∈ f.dirs) :
    build false target_name bind_ports application_port deployment_dir domain_name
      srcDirs srcTree webappT nginxT load dump (some f) =
      (some f, some BuildErr.buildExists) := by
  simp [build, copyAppTree, Option.getD, happ]

/-- Witness for the amended C6: a build directory holding `app` (as a
prior build leaves it) makes `build(clean=False)` fail with the collision
error and return the directory unchanged. -/
theorem C6_build_collision_app_exists_witness :
    build false "web" [(8080, 80)] 9 "/srv/web" "example.com"
      [] [(["main.py"], "code")]
      [(["docker-compose.yaml"], TEntry.file [Chunk.lit "cc"])] []
      (fun s => if s = "cc" then
        some (Yaml.map [("services", Yaml.map [("web", Yaml.map [])])]) else none)
      (fun _ => "dumped")
      (some ⟨[["app"]], [(["app", "main.py"], "old")]⟩) =
      (some ⟨[["app"]], [(["app", "main.py"], "old")]⟩, some BuildErr.buildExists) :=
  C6_build_collision_app_exists "web" [(8080, 80)] 9 "/srv/web" "example.com"
    [] [(["main.py"], "code")]
    [(["docker-compose.yaml"], TEntry.file [Chunk.lit "cc"])] []
    (fun s => if s = "cc" then
      some (Yaml.map [("services", Yaml.map [("web", Yaml.map [])])]) else none)
    (fun _ => "dumped")
    ⟨[["app"]], [(["app", "main.py"], "old")]⟩ (by decide)

/-- Counterexample to claim C6 as stated: a target with a pre-existing
build directory (here one containing only a `stale` subdirectory, not
`app`) does not make `build(clean=False)` fail — the build runs to
completion, because `shutil.copytree` only raises when the `app`
subdirectory itself exists. -/
theorem C6_counterexample_build_dir_without_app :
    (build false "web" [(8080, 80)] 9 "/srv/web" "example.com"
      [] [(["main.py"], "code")]
      [(["docker-compose.yaml"], TEntry.file [Chunk.lit "cc"])] []
      (fun s => if s = "cc" then
        some (Yaml.map [("services", Yaml.map [("web", Yaml.map [])])]) else none)
      (fun _ => "dumped")
      (some ⟨[["stale"]], []⟩)).2 = none := rfl

/-- Claim C7: `build(clean=True)` first removes any prior build directory
tree — the outcome is identical for every prior state, including an
absent directory — and then produces a build directory containing the
copied source tree under `app/`, the rendered webapp config at the build
root, the rendered reverse-proxy config under `nginx_config/`, and a
compose document whose ports list matches the target's port mapping. The
embedding of `build` acts on the local `FS` state only; no session
appears in it, matching the absence of remote calls in the source. -/
theorem C7_build_clean_produces_artifact
    (target_name : String) (bind_ports : List (Nat × Nat)) (application_port : Nat)
    (deployment_dir domain_name : String)
    (srcDirs : List (List String)) (srcTree : List (List String × String))
    (webappT nginxT : List (List String × TEntry))
    (load : String → Option Yaml) (dump : Yaml → String)
    (cc : List Chunk) (s0 : String) (top svcs svc : List (String × Yaml))
    (hsNodup : (srcTree.map Prod.fst).Nodup)
    (hwOk : ∀ p ∈ webappT, entryOk
      (buildEnv target_name bind_ports application_port deployment_dir domain_name) p.2 = true)
    (hnOk : ∀ p ∈ nginxT, entryOk
      (buildEnv target_name bind_ports application_port deployment_dir domain_name) p.2 = true)
    (hwNodup : (webappT.map Prod.fst).Nodup)
    (hnNodup : (nginxT.map Prod.fst).Nodup)
    (hwHeads : ∀ p ∈ webappT, p.1.head? ≠ some "app" ∧ p.1.head? ≠ some "nginx_config")
    (hcc : (["docker-compose.yaml"], TEntry.file cc) ∈ webappT)
    (hsub : substChunks
      (buildEnv target_name bind_ports application_port deployment_dir domain_name) cc =
      Except.ok s0)
    (hload : load s0 = some (Yaml.map top))
    (hsvcs : alist_get top "services" = some (Yaml.map svcs))
    (happ : alist_get svcs target_name = some (Yaml.map svc)) :
    ∃ fF : FS,
      (∀ st : Option FS,
        build true target_name bind_ports application_port deployment_dir domain_name
          srcDirs srcTree webappT nginxT load dump st = (some fF, none)) ∧
      (∀ p c, (p, c) ∈ srcTree → alist_get fF.files ("app" :: p) = some c) ∧
      (∀ rel cs, (rel, TEntry.file cs) ∈ webappT → rel ≠ ["docker-compose.yaml"] →
        ∃ s, substChunks
            (buildEnv target_name bind_ports application_port deployment_dir domain_name) cs =
            Except.ok s ∧
          alist_get fF.files rel = some s) ∧
      (∀ rel cs, (rel, TEntry.file cs) ∈ nginxT →
        ∃ s, substChunks
            (buildEnv target_name bind_ports application_port deployment_dir domain_name) cs =
            Except.ok s ∧
          alist_get fF.files ("nginx_config" :: rel) = some s) ∧
      (∃ d2, alist_get fF.files ["docker-compose.yaml"] = some (dump d2) ∧
        service_ports d2 target_name = some (Yaml.strList (portStrings bind_ports))) := by
  set env : Env :=
    buildEnv target_name bind_ports application_port deployment_dir domain_name with henv
  set f1 : FS := ⟨(["app"] :: srcDirs.map (fun d => "app" :: d)) ++ ([] : List (List String)),
    srcTree.map (fun pc => ("app" :: pc.1, pc.2)) ++ ([] : List (List String × String))⟩ with hf1
  have hcopy : copyAppTree srcDirs srcTree none = Except.ok f1 := rfl
  obtain ⟨f2, e2, hp2⟩ :
      ∃ f2 e2, copy_files_with_substitution env [] webappT f1 = (f2, e2) := ⟨_, _, rfl⟩
  have he2 : e2 = none := by
    have h : (copy_files_with_substitution env [] webappT f1).2 = e2 := by rw [hp2]
    rw [← h]
    exact renderLoop_ok env [] webappT _ hwOk
  subst he2
  obtain ⟨f3, e3, hp3⟩ :
      ∃ f3 e3, copy_files_with_substitution env ["nginx_config"] nginxT f2 = (f3, e3) :=
    ⟨_, _, rfl⟩
  have he3 : e3 = none := by
    have h : (copy_files_with_substitution env ["nginx_config"] nginxT f2).2 = e3 := by
      rw [hp3]
    rw [← h]
    exact renderLoop_ok env ["nginx_config"] nginxT _ hnOk
  subst he3
  have hpresW : ∀ q : List String, (∀ p ∈ webappT, q ≠ p.1) →
      alist_get f2.files q = alist_get f1.files q := by
    intro q hq
    have h : (copy_files_with_substitution env [] webappT f1).1 = f2 := by rw [hp2]
    rw [← h]
    exact renderLoop_files_preserve env [] webappT _ q (fun p hp => by simpa using hq p hp)
  have hpresN : ∀ q : List String, (∀ p ∈ nginxT, q ≠ "nginx_config" :: p.1) →
      alist_get f3.files q = alist_get f2.files q := by
    intro q hq
    have h : (copy_files_with_substitution env ["nginx_config"] nginxT f2).1 = f3 := by
      rw [hp3]
    rw [← h]
    exact renderLoop_files_preserve env ["nginx_config"] nginxT _ q (fun p hp => hq p hp)
  have hw_compose : alist_get f2.files ["docker-compose.yaml"] = some s0 := by
    obtain ⟨s, hs, hw⟩ := renderLoop_writes env [] webappT
      { f1 with dirs := ([] : List String) :: f1.dirs } hwOk hwNodup _ _ hcc
    injection hs.symm.trans hsub with hss
    subst hss
    have h : (copy_files_with_substitution env [] webappT f1).1 = f2 := by rw [hp2]
    rw [← h]
    exact hw
  have hcget : alist_get f3.files ["docker-compose.yaml"] = some s0 := by
    have hne : ∀ p ∈ nginxT, (["docker-compose.yaml"] : List String) ≠ "nginx_config" :: p.1 := by
      intro p hp hcontra
      simp at hcontra
    rw [hpresN _ hne]
    exact hw_compose
  set d2 : Yaml := Yaml.map (alist_set top "services" (Yaml.map (alist_set svcs target_name
    (Yaml.map (alist_set svc "ports" (Yaml.strList (portStrings bind_ports))))))) with hd2
  have hdata : configure_compose_data (Yaml.map top) target_name bind_ports = some d2 := by
    simp [configure_compose_data, hsvcs, happ, hd2]
  set f4 : FS := { f3 with files := alist_set f3.files ["docker-compose.yaml"] (dump d2) }
    with hf4
  have hcs : composeStep load dump target_name bind_ports f3 = Except.ok f4 := by
    simp [composeStep, hcget, hload, hdata, hf4]
  refine ⟨f4, ?_, ?_, ?_, ?_, ?_⟩
  · intro st
    simp only [build]
    rw [← henv]
    simp only [if_true, hcopy, hp2, hp3, hcs]
  · intro p c hpc
    have hne4 : ("app" :: p) ≠ (["docker-compose.yaml"] : List String) := by simp
    rw [hf4]
    rw [alist_get_set_ne _ _ _ _ hne4]
    have hneN : ∀ q ∈ nginxT, ("app" :: p) ≠ "nginx_config" :: q.1 := by
      intro q hq hcontra
      simp at hcontra
    rw [hpresN _ hneN]
    have hneW : ∀ q ∈ webappT, ("app" :: p) ≠ q.1 := by
      intro q hq hcontra
      have hh := (hwHeads q hq).1
      rw [← hcontra] at hh
      simp at hh
    rw [hpresW _ hneW]
    rw [hf1]
    simp only [List.append_nil]
    have hg : ∀ a b : List String, ("app" :: a) = ("app" :: b) → a = b := by
      intro a b hab
      injection hab
    calc alist_get (srcTree.map (fun pc => ("app" :: pc.1, pc.2))) ("app" :: p)
        = alist_get srcTree p := alist_get_map_inj (fun q => "app" :: q) hg srcTree p
      _ = some c := alist_get_of_mem_nodup srcTree p c hsNodup hpc
  · intro rel cs hmem hrelne
    obtain ⟨s, hs, hw⟩ := renderLoop_writes env [] webappT
      { f1 with dirs := ([] : List String) :: f1.dirs } hwOk hwNodup rel cs hmem
    refine ⟨s, hs, ?_⟩
    rw [hf4]
    rw [alist_get_set_ne _ _ _ _ hrelne]
    have hneN : ∀ q ∈ nginxT, rel ≠ "nginx_config" :: q.1 := by
      intro q hq hcontra
      have hh := (hwHeads (rel, TEntry.file cs) hmem).2
      rw [hcontra] at hh
      simp at hh
    rw [hpresN _ hneN]
    have h : (copy_files_with_substitution env [] webappT f1).1 = f2 := by rw [hp2]
    rw [← h]
    exact hw
  · intro rel cs hmem
    obtain ⟨s, hs, hw⟩ := renderLoop_writes env ["nginx_config"] nginxT
      { f2 with dirs := (["nginx_config"] : List String) :: f2.dirs } hnOk hnNodup rel cs hmem
    refine ⟨s, hs, ?_⟩
    rw [hf4]
    have hne : ("nginx_config" :: rel) ≠ (["docker-compose.yaml"] : List String) := by simp
    rw [alist_get_set_ne _ _ _ _ hne]
    have h : (copy_files_with_substitution env ["nginx_config"] nginxT f2).1 = f3 := by
      rw [hp3]
    rw [← h]
    exact hw
  · refine ⟨d2, ?_, ?_⟩
    · rw [hf4]
      exact alist_get_set_self _ _ _
    · rw [hd2]
      simp [service_ports, alist_get_set_self]

/-- Witness for C7: a concrete target `web` with two bound ports, one
source file, a compose template, a `Dockerfile` template using
`TARGET_NAME`, and an nginx template using `DOMAIN_NAME`. -/
theorem C7_build_clean_produces_artifact_witness :
    ∃ fF : FS,
      (∀ st : Option FS,
        build true "web" [(8080, 80), (8443, 443)] 9 "/srv/web" "example.com"
          [] [(["main.py"], "code")]
          [(["docker-compose.yaml"], TEntry.file [Chunk.lit "cc"]),
           (["Dockerfile"], TEntry.file [Chunk.var "TARGET_NAME"])]
          [(["site.conf"], TEntry.file [Chunk.var "DOMAIN_NAME"])]
          (fun s => if s = "cc" then
            some (Yaml.map [("services", Yaml.map [("web",
              Yaml.map [("ports", Yaml.nullV)])])]) else none)
          (fun _ => "dumped") st = (some fF, none)) ∧
      (∀ p c, (p, c) ∈ [((["main.py"] : List String), "code")] →
        alist_get fF.files ("app" :: p) = some c) ∧
      (∀ rel cs, (rel, TEntry.file cs) ∈
          [(["docker-compose.yaml"], TEntry.file [Chunk.lit "cc"]),
           (["Dockerfile"], TEntry.file [Chunk.var "TARGET_NAME"])] →
          rel ≠ ["docker-compose.yaml"] →
        ∃ s, substChunks (buildEnv "web" [(8080, 80), (8443, 443)] 9 "/srv/web"
            "example.com") cs = Except.ok s ∧
          alist_get fF.files rel = some s) ∧
      (∀ rel cs, (rel, TEntry.file cs) ∈
          [(["site.conf"], TEntry.file [Chunk.var "DOMAIN_NAME"])] →
        ∃ s, substChunks (buildEnv "web" [(8080, 80), (8443, 443)] 9 "/srv/web"
            "example.com") cs = Except.ok s ∧
          alist_get fF.files ("nginx_config" :: rel) = some s) ∧
      (∃ d2, alist_get fF.files ["docker-compose.yaml"] = some "dumped" ∧
        service_ports d2 "web" =
          some (Yaml.strList (portStrings [(8080, 80), (8443, 443)]))) := by
  obtain ⟨fF, h1, h2, h3, h4, d2, h5, h6⟩ :=
    C7_build_clean_produces_artifact "web" [(8080, 80), (8443, 443)] 9 "/srv/web"
      "example.com" [] [(["main.py"], "code")]
      [(["docker-compose.yaml"], TEntry.file [Chunk.lit "cc"]),
       (["Dockerfile"], TEntry.file [Chunk.var "TARGET_NAME"])]
      [(["site.conf"], TEntry.file [Chunk.var "DOMAIN_NAME"])]
      (fun s => if s = "cc" then
        some (Yaml.map [("services", Yaml.map [("web",
          Yaml.map [("ports", Yaml.nullV)])])]) else none)
      (fun _ => "dumped")
      [Chunk.lit "cc"] "cc"
      [("services", Yaml.map [("web", Yaml.map [("ports", Yaml.nullV)])])]
      [("web", Yaml.map [("ports", Yaml.nullV)])]
      [("ports", Yaml.nullV)]
      (by decide) (by decide) (by decide) (by decide) (by decide) (by decide)
      (by decide) rfl rfl rfl rfl
  exact ⟨fF, h1, h2, h3, h4, d2, h5, h6⟩

theorem mem_ite_nil {α : Type} (c : Prop) [Decidable c] (l : List α) (x : α)
    (h : x ∈ if c then l else []) : x ∈ l := by
  split at h
  · exact h
  · simp at h

theorem runSeq_eq_runSteps (s : SessionModel) (cmds : List (List String))
    (rest : List DeployStep) :
    runSeq s cmds (runSteps s rest) =
      runSteps s (cmds.map DeployStep.runCmd ++ rest) := by
  induction cmds with
  | nil => simp [runSeq]
  | cons c cs ih =>
    cases ho : s.runSig c with
    | raised => simp [runSeq, runStep, runSteps, stepRaises, stepEvent, ho]
    | ok b => simp [runSeq, runStep, runSteps, stepRaises, stepEvent, ho, ih]

theorem condLayer (s : SessionModel) (probe : List String)
    (condCmds : List (List String)) (contSeq : List DeployEvent × Bool)
    (contSteps : List DeployStep) (hcont : contSeq = runSteps s contSteps) :
    runStep s probe (fun b => runSeq s (if b then condCmds else []) contSeq) =
      runSteps s (DeployStep.runCmd probe ::
        ((if s.runSig probe = RunOutcome.ok true
            then condCmds.map DeployStep.runCmd else []) ++ contSteps)) := by
  subst hcont
  cases ho : s.runSig probe with
  | raised => simp [runStep, runSteps, stepRaises, stepEvent, ho]
  | ok b =>
    cases b with
    | true =>
      simp only [runStep, ho, if_true]
      rw [runSeq_eq_runSteps]
      simp [runSteps, stepRaises, stepEvent, ho]
    | false =>
      simp only [runStep, ho, if_false]
      simp [runSeq, runSteps, stepRaises, stepEvent, ho]

theorem runSteps_abort (s : SessionModel) (pre : List DeployStep)
    (st : DeployStep) (post : List DeployStep)
    (hpre : ∀ p ∈ pre, stepRaises s p = false) (hst : stepRaises s st = true) :
    runSteps s (pre ++ st :: post) = (pre.map stepEvent ++ [stepEvent st], false) := by
  induction pre with
  | nil => simp [runSteps, hst]
  | cons p rest ih =>
    have hp := hpre p (List.mem_cons_self _ _)
    simp [runSteps, hp, ih (fun q hq => hpre q (List.mem_cons_of_mem _ hq))]

theorem runSteps_all_issued (s : SessionModel) (steps : List DeployStep)
    (h : ∀ st ∈ steps, stepRaises s st = false) :
    runSteps s steps = (steps.map stepEvent, true) := by
  induction steps with
  | nil => rfl
  | cons p rest ih =>
    simp [runSteps, h p (List.mem_cons_self _ _),
      ih (fun q hq => h q (List.mem_cons_of_mem _ hq))]

theorem deploy_eq_runSteps (deployment_dir domain_name email : String)
    (s : SessionModel) :
    deploy deployment_dir domain_name email s =
      runSteps s (deploySteps deployment_dir domain_name email s) := by
  have e5 : runSeq s
      [cp_nginx_config deployment_dir,
       docker_compose_build (deployment_dir ++ "/docker-compose.yaml"),
       set_up_ssl_cert domain_name email,
       ["service", "nginx", "reload"]] ([], true) =
      runSteps s
        [DeployStep.runCmd (cp_nginx_config deployment_dir),
         DeployStep.runCmd (docker_compose_build (deployment_dir ++ "/docker-compose.yaml")),
         DeployStep.runCmd (set_up_ssl_cert domain_name email),
         DeployStep.runCmd ["service", "nginx", "reload"]] := by
    show runSeq s
      [cp_nginx_config deployment_dir,
       docker_compose_build (deployment_dir ++ "/docker-compose.yaml"),
       set_up_ssl_cert domain_name email,
       ["service", "nginx", "reload"]] (runSteps s ([] : List DeployStep)) =
      runSteps s
        [DeployStep.runCmd (cp_nginx_config deployment_dir),
         DeployStep.runCmd (docker_compose_build (deployment_dir ++ "/docker-compose.yaml")),
         DeployStep.runCmd (set_up_ssl_cert domain_name email),
         DeployStep.runCmd ["service", "nginx", "reload"]]
    rw [runSeq_eq_runSteps]
    simp
  have e4 : uploadStep s deployment_dir (runSeq s
      [cp_nginx_config deployment_dir,
       docker_compose_build (deployment_dir ++ "/docker-compose.yaml"),
       set_up_ssl_cert domain_name email,
       ["service", "nginx", "reload"]] ([], true)) =
      runSteps s
        (DeployStep.uploadArtifact deployment_dir ::
          [DeployStep.runCmd (cp_nginx_config deployment_dir),
           DeployStep.runCmd (docker_compose_build (deployment_dir ++ "/docker-compose.yaml")),
           DeployStep.runCmd (set_up_ssl_cert domain_name email),
           DeployStep.runCmd ["service", "nginx", "reload"]]) := by
    rw [e5]
    cases hu : s.uploadOk with
    | true => simp [uploadStep, runSteps, stepRaises, stepEvent, hu]
    | false => simp [uploadStep, runSteps, stepRaises, stepEvent, hu]
  have e3 := condLayer s nginxProbe
    [apt_get_install ["nginx"],
     ["rm", "/etc/nginx/sites-available/default"],
     ["rm", "/etc/nginx/sites-enabled/default"]] _ _ e4
  have e2 := condLayer s pythonProbe [apt_get_install ["python-is-python3"]] _ _ e3
  have e1 := condLayer s dockerProbe [install_docker] _ _ e2
  exact e1

theorem deploySteps_decomp (deployment_dir domain_name email : String)
    (s : SessionModel) :
    ∃ pre, deploySteps deployment_dir domain_name email s =
      pre ++ [DeployStep.uploadArtifact deployment_dir,
        DeployStep.runCmd (cp_nginx_config deployment_dir),
        DeployStep.runCmd (docker_compose_build (deployment_dir ++ "/docker-compose.yaml")),
        DeployStep.runCmd (set_up_ssl_cert domain_name email),
        DeployStep.runCmd ["service", "nginx", "reload"]] ∧
      ∀ st ∈ pre, ∃ c, st = DeployStep.runCmd c := by
  refine ⟨DeployStep.runCmd dockerProbe ::
    ((if s.runSig dockerProbe = RunOutcome.ok true
        then [DeployStep.runCmd install_docker] else []) ++
      (DeployStep.runCmd pythonProbe ::
        ((if s.runSig pythonProbe = RunOutcome.ok true
            then [DeployStep.runCmd (apt_get_install ["python-is-python3"])] else []) ++
          (DeployStep.runCmd nginxProbe ::
            (if s.runSig nginxProbe = RunOutcome.ok true
                then [DeployStep.runCmd (apt_get_install ["nginx"]),
                      DeployStep.runCmd ["rm", "/etc/nginx/sites-available/default"],
                      DeployStep.runCmd ["rm", "/etc/nginx/sites-enabled/default"]]
              else []))))), ?_, ?_⟩
  · simp [deploySteps, List.append_assoc]
  · intro st hst
    simp only [List.mem_cons, List.mem_append] at hst
    rcases hst with rfl | hst
    · exact ⟨_, rfl⟩
    rcases hst with hst | hst
    · have h2 := mem_ite_nil _ _ _ hst
      simp only [List.mem_singleton] at h2
      exact ⟨_, h2⟩
    rcases hst with rfl | hst
    · exact ⟨_, rfl⟩
    rcases hst with hst | hst
    · have h2 := mem_ite_nil _ _ _ hst
      simp only [List.mem_singleton] at h2
      exact ⟨_, h2⟩
    rcases hst with rfl | hst
    · exact ⟨_, rfl⟩
    · have h2 := mem_ite_nil _ _ _ hst
      simp only [List.mem_cons] at h2
      rcases h2 with rfl | rfl | rfl | h2
      · exact ⟨_, rfl⟩
      · exact ⟨_, rfl⟩
      · exact ⟨_, rfl⟩
      · simp at h2

/-- Claim C1 (amended): `deploy` executes exactly the step list
`deploySteps` — probes with their conditional installs, then upload,
reverse-proxy config copy, remote compose build, certificate setup and
proxy reload, in that strict order (the step list always ends with those
five, and everything before them is a remote command, never the upload).
A step that raises an error aborts all remaining steps, whichever step it
is: when the earlier steps did not raise and a step raises, the trace
ends at that step's event with a failure flag, so no later step is
issued — in particular an erroring probe aborts deploy before the
upload. A failing result signal, by contrast, aborts nothing: whenever no
step raises, every step of the list is issued in order regardless of the
signals (see the counterexample theorem for a failing compose build that
does not abort the certificate setup or the reload). -/
theorem C1_deploy_order_and_abort (deployment_dir domain_name email : String)
    (s : SessionModel) :
    deploy deployment_dir domain_name email s =
      runSteps s (deploySteps deployment_dir domain_name email s) ∧
    (∃ pre, deploySteps deployment_dir domain_name email s =
        pre ++ [DeployStep.uploadArtifact deployment_dir,
          DeployStep.runCmd (cp_nginx_config deployment_dir),
          DeployStep.runCmd (docker_compose_build (deployment_dir ++ "/docker-compose.yaml")),
          DeployStep.runCmd (set_up_ssl_cert domain_name email),
          DeployStep.runCmd ["service", "nginx", "reload"]] ∧
      ∀ st ∈ pre, ∃ c, st = DeployStep.runCmd c) ∧
    (s.runSig dockerProbe = RunOutcome.raised →
      deploy deployment_dir domain_name email s =
        ([DeployEvent.run dockerProbe], false)) ∧
    (∀ pre st post,
      deploySteps deployment_dir domain_name email s = pre ++ st :: post →
      (∀ p ∈ pre, stepRaises s p = false) → stepRaises s st = true →
      deploy deployment_dir domain_name email s =
        (pre.map stepEvent ++ [stepEvent st], false)) ∧
    ((∀ st ∈ deploySteps deployment_dir domain_name email s, stepRaises s st = false) →
      deploy deployment_dir domain_name email s =
        ((deploySteps deployment_dir domain_name email s).map stepEvent, true)) := by
  refine ⟨deploy_eq_runSteps deployment_dir domain_name email s,
    deploySteps_decomp deployment_dir domain_name email s, ?_, ?_, ?_⟩
  · intro h
    rw [deploy_eq_runSteps]
    simp [deploySteps, runSteps, stepRaises, stepEvent, h]
  · intro pre st post hdec hpre hst
    rw [deploy_eq_runSteps, hdec]
    exact runSteps_abort s pre st post hpre hst
  · intro h
    rw [deploy_eq_runSteps]
    exact runSteps_all_issued s _ h

/-- Witness for the amended C1: a session whose docker probe raises makes
deploy abort before the upload; a session whose upload raises (every
command signal merely failing) issues the three probes and the upload,
then aborts the copy, build, certificate and reload steps. -/
theorem C1_deploy_order_and_abort_witness :
    deploy "/srv/web" "example.com" "admin@example.com"
        (SessionModel.mk (fun _ => RunOutcome.raised) true) =
      ([DeployEvent.run dockerProbe], false) ∧
    deploy "/srv/web" "example.com" "admin@example.com"
        (SessionModel.mk (fun _ => RunOutcome.ok false) false) =
      ([DeployStep.runCmd dockerProbe, DeployStep.runCmd pythonProbe,
          DeployStep.runCmd nginxProbe].map stepEvent ++
        [stepEvent (DeployStep.uploadArtifact "/srv/web")], false) :=
  ⟨(C1_deploy_order_and_abort "/srv/web" "example.com" "admin@example.com"
      (SessionModel.mk (fun _ => RunOutcome.raised) true)).2.2.1 rfl,
   (C1_deploy_order_and_abort "/srv/web" "example.com" "admin@example.com"
      (SessionModel.mk (fun _ => RunOutcome.ok false) false)).2.2.2.1
     [DeployStep.runCmd dockerProbe, DeployStep.runCmd pythonProbe,
      DeployStep.runCmd nginxProbe]
     (DeployStep.uploadArtifact "/srv/web")
     [DeployStep.runCmd (cp_nginx_config "/srv/web"),
      DeployStep.runCmd (docker_compose_build ("/srv/web" ++ "/docker-compose.yaml")),
      DeployStep.runCmd (set_up_ssl_cert "example.com" "admin@example.com"),
      DeployStep.runCmd ["service", "nginx", "reload"]]
     (by decide) (by decide) (by decide)⟩

/-- Counterexample to C1 as stated: with a session whose every command
reports a failing result signal (and never raises), the compose-build
step fails, yet the certificate procedure and the proxy reload still
execute — a failing step result does not abort the remaining sequence. -/
theorem C1_counterexample_failing_result_does_not_abort :
    (SessionModel.mk (fun _ => RunOutcome.ok false) true).runSig
        (docker_compose_build ("/srv/web" ++ "/docker-compose.yaml")) =
      RunOutcome.ok false ∧
    DeployEvent.run (set_up_ssl_cert "example.com" "admin@example.com") ∈
      (deploy "/srv/web" "example.com" "admin@example.com"
        (SessionModel.mk (fun _ => RunOutcome.ok false) true)).1 ∧
    DeployEvent.run ["service", "nginx", "reload"] ∈
      (deploy "/srv/web" "example.com" "admin@example.com"
        (SessionModel.mk (fun _ => RunOutcome.ok false) true)).1 := by
  refine ⟨rfl, by decide, by decide⟩

/-- Claim C2, failing input: a session whose probes all report success —
meaning `command -v` found every tool, so all three tools are present —
still makes `deploy` issue every install command, while a session whose
probes report failure (tools absent) skips the installs. The conditional
is inverted relative to the claim and to the class docstring ("If no
NGINX is installed on the deployment VM, it is installed"). -/
theorem C2_installs_issued_when_tools_present :
    (deploy "/srv/web" "example.com" "admin@example.com"
        (SessionModel.mk (fun _ => RunOutcome.ok true) true)).1 =
      [DeployEvent.run dockerProbe, DeployEvent.run install_docker,
       DeployEvent.run pythonProbe,
       DeployEvent.run (apt_get_install ["python-is-python3"]),
       DeployEvent.run nginxProbe, DeployEvent.run (apt_get_install ["nginx"]),
       DeployEvent.run ["rm", "/etc/nginx/sites-available/default"],
       DeployEvent.run ["rm", "/etc/nginx/sites-enabled/default"],
       DeployEvent.upload "/srv/web",
       DeployEvent.run (cp_nginx_config "/srv/web"),
       DeployEvent.run (docker_compose_build ("/srv/web" ++ "/docker-compose.yaml")),
       DeployEvent.run (set_up_ssl_cert "example.com" "admin@example.com"),
       DeployEvent.run ["service", "nginx", "reload"]] ∧
    DeployEvent.run install_docker ∉
      (deploy "/srv/web" "example.com" "admin@example.com"
        (SessionModel.mk (fun _ => RunOutcome.ok false) true)).1 :=
  ⟨rfl, by decide⟩

/-- Claim C8: `set_up_ssl_cert` returns one composite command joining, in
fixed order: prerequisite package install, venv creation, pip upgrade,
certbot and nginx-plugin install, certbot symlink, nginx stop, the
non-interactive terms-accepting certbot request for the given domain and
email, and a second nginx stop; the join operator is the unconditional
`";"`, under whose shell semantics every chained command executes in that
order for every pattern of individual command failures. -/
theorem C8_ssl_chain_unconditional
    (domain_name email : String) (exec : List String → Bool)
    (hdm : domain_name ≠ ";") (hem : email ≠ ";") :
    (execSemi exec (set_up_ssl_cert domain_name email)).map Prod.fst =
      [apt_get_install ["python3", "python3-venv", "libaugeas0"],
       ["python3", "-m", "venv", "/opt/certbot/"],
       ["/opt/certbot/bin/pip", "install", "--upgrade", "pip"],
       ["/opt/certbot/bin/pip", "install", "certbot", "certbot-nginx"],
       ["ln", "-s", "/opt/certbot/bin/certbot", "/usr/bin/certbot"],
       ["pkill", "nginx"],
       certbot_cmd domain_name email,
       ["pkill", "nginx"]] := by
  simp [execSemi, set_up_ssl_cert, chain_commands, certbot_cmd, apt_get_install,
    splitSemis, hdm, hem]

/-- Witness for C8: at a concrete domain and email, with every command
failing, all eight chained commands are still executed in order. -/
theorem C8_ssl_chain_unconditional_witness :
    (execSemi (fun _ => false) (set_up_ssl_cert "example.com" "admin@example.com")).map
        Prod.fst =
      [apt_get_install ["python3", "python3-venv", "libaugeas0"],
       ["python3", "-m", "venv", "/opt/certbot/"],
       ["/opt/certbot/bin/pip", "install", "--upgrade", "pip"],
       ["/opt/certbot/bin/pip", "install", "certbot", "certbot-nginx"],
       ["ln", "-s", "/opt/certbot/bin/certbot", "/usr/bin/certbot"],
       ["pkill", "nginx"],
       certbot_cmd "example.com" "admin@example.com",
       ["pkill", "nginx"]] :=
  C8_ssl_chain_unconditional "example.com" "admin@example.com" (fun _ => false)
    (by decide) (by decide)

end Devious
